import Mathlib

/-!
Verification development for the iec61850-sv-comtrade repository.

This file shallowly embeds the parts of the C++ source that the checked
properties talk about:

* `src/include/sampled_value.h` — the SV packet builder (`buildPacket`) and
  the per-second sample counter (`incrementSampleCount`);
* `src/src/comtrade_replay_test.cpp` — the COMTRADE replay pipeline
  (`loadComtradeFile`, `resampleData`, `interpolateLinear`,
  `transmissionLoop`);
* `src/include/timer.h` — the periodic timer (`increment_period`);
* `src/include/goose_decoder.h` — the GOOSE TLV decoder (`decodeGoose`);
* `src/src/comtrade_parser.cpp` — the COMTRADE cfg/dat parser.

Machine integers are modelled as `Nat`/`Int` with explicit `% 2^w` where the
C++ type can overflow; `double` arithmetic on file data is idealized as exact
rational arithmetic; the one genuinely transcendental computation (the phasor
cosine in `buildPacket`) is modelled over the reals with `Real.cos`.
Byte vectors are `List ℕ` whose entries are reduced `% 256` exactly where the
C++ code converts through `uint8_t`.
-/

/-! ## SV packet builder (src/include/sampled_value.h) -/

/-- Big-endian 2-byte encoding of a 16-bit field, as produced by the
`push_back((v >> 8) & 0xFF); push_back(v & 0xFF)` pattern. -/
def be16Bytes (v : ℕ) : List ℕ :=
  [(v >>> 8) % 256, v % 256]

/-- Big-endian 4-byte encoding of a 32-bit field, as produced by the
`push_back((v >> 24) & 0xFF); ...; push_back(v & 0xFF)` pattern. -/
def word32Bytes (v : ℕ) : List ℕ :=
  [(v >>> 24) % 256, (v >>> 16) % 256, (v >>> 8) % 256, v % 256]

/-- Big-endian two's-complement bytes of an `int32_t` value, matching the
arithmetic shifts and `& 0xFF` masking applied to `samples[i]` in
`buildPacket` (sampled_value.h lines 109-112). -/
def int32Bytes (s : ℤ) : List ℕ :=
  word32Bytes (s % 2 ^ 32).toNat

/-- BER length bytes for the inner 0x30 and 0xA2 tags: short form, or long
form `0x81 len` when the length exceeds 127 (sampled_value.h lines 126-131
and 145-150). -/
def lenShortOr81 (n : ℕ) : List ℕ :=
  if n > 127 then [0x81, n % 256] else [n % 256]

/-- BER length bytes for the outer 0x60 SAVPDU tag: one byte, `0x81 len`, or
`0x82 hi lo` (sampled_value.h lines 188-198). -/
def lenOuter (n : ℕ) : List ℕ :=
  if n > 255 then [0x82, (n >>> 8) % 256, n % 256]
  else if n > 127 then [0x81, n % 256]
  else [n % 256]

/-- The seqData payload (tag 0x87 contents): for each of the 8 channels a
4-byte INT32 sample followed by a 4-byte quality word, big-endian
(sampled_value.h lines 107-120). -/
def seqDataBytes (samples : ℕ → ℤ) (qualities : ℕ → ℕ) : List ℕ :=
  ((List.range 8).map fun i => int32Bytes (samples i) ++ word32Bytes (qualities i)).flatten

/-- The ASDU contents built in `buildPacket` (sampled_value.h lines 69-120):
svID, smpCnt, confRev, smpSynch, smpRate, seqData, in TLV form. -/
def asduDataBytes (svID : List ℕ) (smpCnt confRev smpSynch smpRate : ℕ)
    (samples : ℕ → ℤ) (qualities : ℕ → ℕ) : List ℕ :=
  [0x80, svID.length % 256] ++ svID.map (· % 256) ++
  [0x82, 0x02] ++ be16Bytes smpCnt ++
  [0x83, 0x04] ++ word32Bytes confRev ++
  [0x85, 0x01, smpSynch % 256] ++
  [0x86, 0x02] ++ be16Bytes smpRate ++
  [0x87, 64] ++ seqDataBytes samples qualities

/-- The ASDU wrapped in its 0x30 SEQUENCE tag (sampled_value.h lines 122-132). -/
def seqAsduBytes (svID : List ℕ) (smpCnt confRev smpSynch smpRate : ℕ)
    (samples : ℕ → ℤ) (qualities : ℕ → ℕ) : List ℕ :=
  let asduData := asduDataBytes svID smpCnt confRev smpSynch smpRate samples qualities
  0x30 :: lenShortOr81 asduData.length ++ asduData

/-- The SAVPDU contents: noAsdu TLV then the 0xA2-tagged sequence-of-ASDU
(sampled_value.h lines 134-151). -/
def savpduBytes (noAsdu : ℕ) (svID : List ℕ) (smpCnt confRev smpSynch smpRate : ℕ)
    (samples : ℕ → ℤ) (qualities : ℕ → ℕ) : List ℕ :=
  let seqAsdu := seqAsduBytes svID smpCnt confRev smpSynch smpRate samples qualities
  [0x80, 0x01, noAsdu % 256] ++
  (0xA2 :: lenShortOr81 seqAsdu.length ++ seqAsdu)

/-- Number of BER length bytes chosen for the outer 0x60 tag, as computed in
`buildPacket` (sampled_value.h lines 157-164). -/
def outerLengthBytes (savpduLen : ℕ) : ℕ :=
  if savpduLen > 255 then 3 else if savpduLen > 127 then 2 else 1

/-- The full payload returned by `SampledValue::buildPacket` starting at the
EtherType (sampled_value.h lines 153-201), given the already-computed INT32
channel samples: EtherType 0x88BA, APPID, the 2-byte total-length field
`totalLen = 4 + 1 + lengthBytes + savpduLen + 4` (line 165), two reserved
words, and the 0x60-tagged SAVPDU. -/
def buildPacketBytes (appID : ℕ) (noAsdu : ℕ) (svID : List ℕ)
    (smpCnt confRev smpSynch smpRate : ℕ)
    (samples : ℕ → ℤ) (qualities : ℕ → ℕ) : List ℕ :=
  let savpdu := savpduBytes noAsdu svID smpCnt confRev smpSynch smpRate samples qualities
  let savpduLen := savpdu.length
  let totalLen := (4 + 1 + outerLengthBytes savpduLen + savpduLen + 4) % 65536
  [0x88, 0xBA] ++ be16Bytes appID ++ be16Bytes totalLen ++
  [0x00, 0x00, 0x00, 0x00] ++
  (0x60 :: lenOuter savpduLen ++ savpdu)

/-- The 16-bit value carried by the total-length header field of a built
packet (bytes 4 and 5, big-endian). -/
def packetLengthField (packet : List ℕ) : ℕ :=
  packet.getD 4 0 * 256 + packet.getD 5 0

/-- `SampledValue::incrementSampleCount` (sampled_value.h lines 204-207):
`smpCnt` is a `uint16_t`, so the `++` wraps at 2^16; the counter is reset to 0
once it reaches `smpRate`. -/
def incrementSampleCount (smpRate smpCnt : ℕ) : ℕ :=
  let c := (smpCnt + 1) % 65536
  if c ≥ smpRate then 0 else c


/-! ## Phasor synthesis in `buildPacket` (sampled_value.h lines 53-66) and
the COMTRADE replay transmission loop (comtrade_replay_test.cpp lines 414-427) -/

/-- The `static_cast<int32_t>` conversion from `double`: truncation toward
zero (the in-range case; out-of-range behaviour is undefined in C++ and not
exercised by any theorem below). -/
noncomputable def cppTruncToInt (x : ℝ) : ℤ :=
  if 0 ≤ x then ⌊x⌋ else ⌈x⌉

/-- The INT32 sample computed by `buildPacket` for one channel from its
phasor `(magnitude, angleDegrees)` at the current `smpCnt`/`smpRate`
(sampled_value.h lines 53-66):
`int32(magnitude * 1.414213562 * cos(2*pi*60 * (smpCnt/smpRate) + angle*pi/180))`. -/
noncomputable def phasorSampleValue (magnitude angleDeg : ℝ) (smpCnt smpRate : ℕ) : ℤ :=
  let omega : ℝ := 2 * Real.pi * 60
  let t : ℝ := (smpCnt : ℝ) / (smpRate : ℝ)
  let angleRad : ℝ := angleDeg * Real.pi / 180
  cppTruncToInt (magnitude * 1.414213562 * Real.cos (omega * t + angleRad))

/-- The phasor pair that `ComtradeReplayTest::transmissionLoop` hands to
`buildPacket` for SV channel `ch` at output sample index `sampleIdx`
(comtrade_replay_test.cpp lines 418-424): the pre-computed resampled INT32
value as the magnitude, and angle 0. -/
def replayPhasor (resampledData : ℕ → ℕ → ℤ) (ch sampleIdx : ℕ) : ℤ × ℤ :=
  (resampledData ch sampleIdx, 0)

/-- The INT32 sample actually encoded into the SV frame for channel `ch` at
output index `sampleIdx` in COMTRADE replay mode: `transmissionLoop` builds
the phasor pair above and `buildPacket` then applies the cosine synthesis to
it (comtrade_replay_test.cpp line 427 calling sampled_value.h lines 53-66). -/
noncomputable def replayEmittedSample (resampledData : ℕ → ℕ → ℤ)
    (ch sampleIdx smpCnt smpRate : ℕ) : ℤ :=
  phasorSampleValue ((replayPhasor resampledData ch sampleIdx).1 : ℝ)
    ((replayPhasor resampledData ch sampleIdx).2 : ℝ) smpCnt smpRate

/-! ## Resampler (comtrade_replay_test.cpp lines 170-220) -/

/-- `ComtradeReplayTest::interpolateLinear` (comtrade_replay_test.cpp lines
201-220), with `double` idealized as `ℚ`: clamp at both ends, otherwise
linear interpolation between `data[floor(index)]` and the next sample. -/
def interpolateLinear (data : List ℚ) (index : ℚ) : ℚ :=
  if data = [] then 0
  else if index ≤ 0 then data.headD 0
  else if ((data.length : ℚ) - 1) ≤ index then data.getLastD 0
  else
    let i0 : ℤ := ⌊index⌋
    let frac : ℚ := index - (i0 : ℚ)
    data.getD i0.toNat 0 * (1 - frac) + data.getD (i0.toNat + 1) 0 * frac

/-- `ComtradeReplayTest::resampleData` (comtrade_replay_test.cpp lines
170-199): per channel, `ceil(inputSamples * outputRate/inputRate)` output
points, each linearly interpolated at input position `i / ratio`. -/
def resampleData (input : List (List ℚ)) (inputRate outputRate : ℚ) : List (List ℚ) :=
  if input = [] ∨ input.headD [] = [] then input
  else
    let inputSamples : ℕ := (input.headD []).length
    let ratio : ℚ := outputRate / inputRate
    let outputSamples : ℕ := (⌈(inputSamples : ℚ) * ratio⌉).toNat
    input.map fun ch =>
      (List.range outputSamples).map fun i : ℕ => interpolateLinear ch ((i : ℚ) / ratio)


/-! ## Periodic timer (src/include/timer.h) -/

/-- The POSIX `struct timespec` as stored in `Timer::next_period`, with the
C `long`/`time_t` fields idealized as unbounded integers. -/
structure Timespec where
  tv_sec : ℤ
  tv_nsec : ℤ
deriving Repr, DecidableEq

/-- The normalization loop of `Timer::increment_period` (timer.h lines
44-47): while `tv_nsec >= 1e9`, carry one second. -/
def normalizeNsec (t : Timespec) : Timespec :=
  if t.tv_nsec ≥ 1000000000 then
    normalizeNsec ⟨t.tv_sec + 1, t.tv_nsec - 1000000000⟩
  else t
termination_by t.tv_nsec.toNat
decreasing_by
  show (t.tv_nsec - 1000000000).toNat < t.tv_nsec.toNat
  omega

/-- `Timer::increment_period` (timer.h lines 38-49, non-Windows branch): add
the period to `tv_nsec` and normalize.  `Timer::wait_period` (line 134)
performs exactly one such increment per call and does not otherwise modify
`next_period`. -/
def increment_period (period_ns : ℤ) (t : Timespec) : Timespec :=
  normalizeNsec ⟨t.tv_sec, t.tv_nsec + period_ns⟩

/-- Total nanoseconds represented by a timespec value. -/
def totalNs (t : Timespec) : ℤ :=
  t.tv_sec * 1000000000 + t.tv_nsec

/-! ## GOOSE decoder (src/include/goose_decoder.h) -/

/-- The fields of `GooseMessage` that `decodeGoose` can populate, with
C++ strings modelled as byte lists.  `lenOverrun` is a ghost observation not
present in the C++ struct: it records that the decoder took the `break` at
goose_decoder.h line 123 because a TLV field length would overrun the end of
the packet. -/
structure GooseMessage where
  appID : ℕ := 0
  gocbRef : List ℕ := []
  timeAllowedToLive : ℕ := 0
  datSet : List ℕ := []
  stNum : ℕ := 0
  sqNum : ℕ := 0
  valid : Bool := false
  lenOverrun : Bool := false
deriving Repr, DecidableEq

/-- Checked byte access: `packet[i]` fails (models undefined behaviour of an
out-of-range `std::vector` access) unless `i` is in range; the value is
reduced `% 256` because the packet entries are `uint8_t`. -/
def byteAt (packet : List ℕ) (i : ℕ) : Option ℕ :=
  (packet.get? i).map (· % 256)

/-- The bytes `packet[off], ..., packet[off+len-1]` as a list, used for the
`std::string(packet.begin()+off, packet.begin()+off+len)` constructions; its
callers only use it under the decoder's `offset + fieldLen <= packet.size()`
guard. -/
def sliceBytes (packet : List ℕ) (off len : ℕ) : List ℕ :=
  ((packet.drop off).take len).map (· % 256)

/-- Big-endian u32 read of `packet[off..off+3]` with checked accesses,
modelling the four-shift extraction at goose_decoder.h lines 132-135 and
analogous sites. -/
def readU32 (packet : List ℕ) (off : ℕ) : Option ℕ := do
  let b0 ← byteAt packet off
  let b1 ← byteAt packet (off + 1)
  let b2 ← byteAt packet (off + 2)
  let b3 ← byteAt packet (off + 3)
  pure (b0 * 16777216 + b1 * 65536 + b2 * 256 + b3)

/-- The TLV length parse of the decoder loop (goose_decoder.h lines 109-121),
entered with `offset < packet.size()`: short form, or long form with one or
two length bytes, each guarded; when the long-form guard fails the C++ code
leaves `fieldLen = 0` and does not advance past the missing bytes.  Returns
the parsed field length and the new offset. -/
def readFieldLen (packet : List ℕ) (offset : ℕ) : Option (ℕ × ℕ) := do
  let b ← byteAt packet offset
  if b &&& 0x80 ≠ 0 then
    let numLenBytes := b &&& 0x7F
    let o := offset + 1
    if numLenBytes = 1 ∧ o < packet.length then do
      let v ← byteAt packet o
      pure (v, o + 1)
    else if numLenBytes = 2 ∧ o + 1 < packet.length then do
      let hi ← byteAt packet o
      let lo ← byteAt packet (o + 1)
      pure (hi * 256 + lo, o + 2)
    else
      pure (0, o)
  else
    pure (b, offset + 1)

/-- The per-tag extraction switch of the decoder loop (goose_decoder.h lines
126-157), entered under the `offset + fieldLen <= packet.size()` guard. -/
def gooseUpdateField (packet : List ℕ) (tag fieldLen offset : ℕ)
    (msg : GooseMessage) : Option GooseMessage :=
  if tag = 0x80 then
    some { msg with gocbRef := sliceBytes packet offset fieldLen }
  else if tag = 0x81 then
    if fieldLen = 4 then do
      let v ← readU32 packet offset
      pure { msg with timeAllowedToLive := v }
    else some msg
  else if tag = 0x82 then
    some { msg with datSet := sliceBytes packet offset fieldLen }
  else if tag = 0x85 then
    if fieldLen = 4 then do
      let v ← readU32 packet offset
      pure { msg with stNum := v }
    else some msg
  else if tag = 0x86 then
    if fieldLen = 4 then do
      let v ← readU32 packet offset
      pure { msg with sqNum := v }
    else some msg
  else some msg

/-- The TLV iteration loop of `decodeGoose` (goose_decoder.h lines 104-160).
`fuel` bounds the number of iterations; the initial call passes
`packet.length`, which is proved sufficient below (the loop advances
`offset` by at least 2 per iteration while `offset < packet.length`), so a
`none` from fuel exhaustion never occurs. -/
def goosePduLoop (packet : List ℕ) (pduEnd : ℕ) : ℕ → ℕ → GooseMessage → Option GooseMessage
  | 0, offset, msg =>
    if offset < pduEnd ∧ offset < packet.length then none else some msg
  | fuel + 1, offset, msg =>
    if offset < pduEnd ∧ offset < packet.length then do
      let tag ← byteAt packet offset
      let o1 := offset + 1
      if o1 ≥ packet.length then some msg
      else do
        let (fieldLen, o2) ← readFieldLen packet o1
        if o2 + fieldLen > packet.length then
          some { msg with lenOverrun := true }
        else do
          let msg' ← gooseUpdateField packet tag fieldLen o2 msg
          goosePduLoop packet pduEnd fuel (o2 + fieldLen) msg'
    else some msg

/-- `decodeGoose` (goose_decoder.h lines 41-164) with every byte access
checked: `none` models an out-of-bounds `std::vector` access (or fuel
exhaustion of the loop above, shown impossible).  Mirrors the header walk:
minimum size 28, optional VLAN tag skip, EtherType 0x88B8, APPID, skipped
length and reserved words, 0x61 PDU tag, BER PDU length, then the TLV loop,
and finally `msg.valid = !msg.gocbRef.empty()`. -/
def decodeGooseChecked (packet : List ℕ) : Option GooseMessage := do
  let msg : GooseMessage := {}
  if packet.length < 28 then some msg
  else do
    let b12 ← byteAt packet 12
    let b13 ← byteAt packet 13
    let offset := if b12 = 0x81 ∧ b13 = 0x00 then 16 else 12
    if offset + 2 > packet.length then some msg
    else do
      let e0 ← byteAt packet offset
      let e1 ← byteAt packet (offset + 1)
      if e0 ≠ 0x88 ∨ e1 ≠ 0xB8 then some msg
      else do
        let offset := offset + 2
        if offset + 2 > packet.length then some msg
        else do
          let a0 ← byteAt packet offset
          let a1 ← byteAt packet (offset + 1)
          let msg := { msg with appID := a0 * 256 + a1 }
          let offset := offset + 2
          if offset + 2 > packet.length then some msg
          else do
            let offset := offset + 2 + 4
            if offset ≥ packet.length then some msg
            else do
              let t ← byteAt packet offset
              if t ≠ 0x61 then some msg
              else do
                let offset := offset + 1
                if offset ≥ packet.length then some msg
                else do
                  let (pduLen, offset) ← readFieldLen packet offset
                  let m ← goosePduLoop packet (offset + pduLen) packet.length offset msg
                  pure { m with valid := !m.gocbRef.isEmpty }

/-- The total decoder, as callers observe it (`decodeGooseChecked` never
fails, which is claim C10; the default is never used). -/
def decodeGoose (packet : List ℕ) : GooseMessage :=
  (decodeGooseChecked packet).getD {}


/-! ## COMTRADE parser (src/src/comtrade_parser.cpp) -/

/-- The C locale whitespace set used by `std::isspace` in
`ComtradeParser::trim`. -/
def isSpaceChar (c : Char) : Bool :=
  c = ' ' ∨ c = '\t' ∨ c = '\n' ∨ c = '\x0b' ∨ c = '\x0c' ∨ c = '\r'

/-- `ComtradeParser::trim` (comtrade_parser.cpp lines 30-51): strip leading
and trailing whitespace. -/
def trimWs (s : String) : String :=
  String.mk (((s.data.dropWhile isSpaceChar).reverse.dropWhile isSpaceChar).reverse)

/-- Split a character list at every comma, keeping empty fields (the
elementary split underlying `std::getline(ss, token, ',')`). -/
def splitCommaAux : List Char → List Char → List String
  | [], acc => [String.mk acc.reverse]
  | c :: cs, acc =>
    if c = ',' then String.mk acc.reverse :: splitCommaAux cs []
    else splitCommaAux cs (c :: acc)

/-- `ComtradeParser::splitLine` (comtrade_parser.cpp lines 53-63): repeated
`std::getline(ss, token, ',')`.  On the empty string `getline` fails at once
(no tokens); otherwise the split produces one token per comma-separated
field, except that a trailing empty field after a final comma is not
yielded (the stream is exhausted before that `getline`).  Each token is
trimmed. -/
def splitLine (line : String) : List String :=
  let parts := splitCommaAux line.data []
  let parts := if line = "" then []
    else if parts.getLast? = some "" then parts.dropLast else parts
  parts.map trimWs


/-- Numeric value of a list of decimal digit characters. -/
def digitsVal (ds : List Char) : ℕ :=
  ds.foldl (fun acc c => acc * 10 + (c.toNat - 48)) 0

/-- `std::stoi` (base 10): skip leading whitespace, optional sign, then at
least one digit; trailing characters are ignored; no digits means the
`std::invalid_argument` exception, modelled as `none`.  The `int` range is
idealized as `ℤ` (overflow would throw `std::out_of_range`; no input
exercised here overflows). -/
def stoiQ (s : String) : Option ℤ :=
  let cs := s.data.dropWhile isSpaceChar
  let sign : ℤ := if cs.headD ' ' = '-' then -1 else 1
  let cs := if cs.headD ' ' = '-' ∨ cs.headD ' ' = '+' then cs.drop 1 else cs
  let ds := cs.takeWhile Char.isDigit
  if ds = [] then none else some (sign * digitsVal ds)


/-- `std::stod` on the plain decimal forms that COMTRADE cfg fields use:
skip leading whitespace, optional sign, digits with an optional fractional
part; at least one digit is required overall; trailing characters are
ignored; no digits means `std::invalid_argument`, modelled as `none`.
(Exponent and hexadecimal forms accepted by `std::stod` are not exercised by
any concrete input in this file and are outside this model.) -/
def stodQ (s : String) : Option ℚ :=
  let cs := s.data.dropWhile isSpaceChar
  let sign : ℚ := if cs.headD ' ' = '-' then -1 else 1
  let cs := if cs.headD ' ' = '-' ∨ cs.headD ' ' = '+' then cs.drop 1 else cs
  let ds1 := cs.takeWhile Char.isDigit
  let rest := cs.drop ds1.length
  let ds2 := if rest.headD ' ' = '.' then (rest.drop 1).takeWhile Char.isDigit else []
  if ds1 = [] ∧ ds2 = [] then none
  else some (sign * ((digitsVal ds1 : ℚ) + (digitsVal ds2 : ℚ) / 10 ^ ds2.length))

/-- An analog channel record (comtrade_parser.h lines 20-33), with `double`
idealized as `ℚ`.  After `ComtradeConfig()` default construction the numeric
fields are indeterminate in C++; the model uses zeros, and no theorem relies
on a numeric field of a default-constructed record. -/
structure AnalogChannel where
  index : ℤ := 0
  name : String := ""
  phase : String := ""
  units : String := ""
  a : ℚ := 0
  b : ℚ := 0
  skew : ℚ := 0
  min : ℚ := 0
  max : ℚ := 0
  primary : ℚ := 0
  secondary : ℚ := 0
  ps : Char := 'P'
deriving Repr, DecidableEq

/-- A digital channel record (comtrade_parser.h lines 38-42). -/
structure DigitalChannel where
  index : ℤ := 0
  name : String := ""
  normalState : ℤ := 0
deriving Repr, DecidableEq

/-- A sample-rate segment (comtrade_parser.h lines 47-50). -/
structure SampleRate where
  rate : ℚ := 0
  endSample : ℤ := 0
deriving Repr, DecidableEq

/-- The data-format tag (comtrade_parser.h lines 11-15).  `UNSET` stands for
the indeterminate value of the field in a default-constructed
`ComtradeConfig`; `parseCfg` always assigns one of the three real tags
before succeeding. -/
inductive DataFormat
  | ASCII
  | BINARY
  | BINARY32
  | UNSET
deriving Repr, DecidableEq

/-- `ComtradeConfig` (comtrade_parser.h lines 55-80).  String and vector
fields of a default-constructed instance are empty; the numeric fields are
indeterminate in C++ and zero here (no theorem relies on them). -/
structure ComtradeConfig where
  stationName : String := ""
  recDeviceId : String := ""
  revisionYear : ℤ := 0
  totalChannels : ℤ := 0
  numAnalogChannels : ℤ := 0
  numDigitalChannels : ℤ := 0
  analogChannels : List AnalogChannel := []
  digitalChannels : List DigitalChannel := []
  lineFreq : ℚ := 0
  numSampleRates : ℤ := 0
  sampleRates : List SampleRate := []
  startDate : String := ""
  startTime : String := ""
  dataFormat : DataFormat := .UNSET
  timeFactor : ℚ := 0
  totalSamples : ℤ := 0
deriving Repr, DecidableEq

/-- `ComtradeSample` (comtrade_parser.h lines 85-90). -/
structure ComtradeSample where
  sampleNumber : ℤ := 0
  timestamp : ℕ := 0
  analogValues : List ℚ := []
  digitalValues : List Bool := []
deriving Repr, DecidableEq

/-- `ComtradeParser::parseAnalogChannelLine` (comtrade_parser.cpp lines
287-312): at least 13 comma fields; any `stoi`/`stod` failure is caught and
the line rejected (`none`). -/
def parseAnalogChannelLine (line : String) : Option AnalogChannel := do
  let tokens := splitLine line
  if tokens.length < 13 then none
  else do
    let idx ← stoiQ (tokens.getD 0 "")
    let a ← stodQ (tokens.getD 5 "")
    let b ← stodQ (tokens.getD 6 "")
    let skew ← stodQ (tokens.getD 7 "")
    let mn ← stodQ (tokens.getD 8 "")
    let mx ← stodQ (tokens.getD 9 "")
    let primary ← stodQ (tokens.getD 10 "")
    let secondary ← stodQ (tokens.getD 11 "")
    some { index := idx - 1, name := tokens.getD 1 "", phase := tokens.getD 2 "",
           units := tokens.getD 4 "", a := a, b := b, skew := skew, min := mn, max := mx,
           primary := primary, secondary := secondary,
           ps := if tokens.length ≥ 13 ∧ tokens.getD 12 "" ≠ ""
                 then (tokens.getD 12 "").data.headD 'P' else 'P' }

/-- `ComtradeParser::parseDigitalChannelLine` (comtrade_parser.cpp lines
314-330): at least 5 comma fields; fields 0, 1 and 4 are used. -/
def parseDigitalChannelLine (line : String) : Option DigitalChannel := do
  let tokens := splitLine line
  if tokens.length < 5 then none
  else do
    let idx ← stoiQ (tokens.getD 0 "")
    let ns ← stoiQ (tokens.getD 4 "")
    some { index := idx - 1, name := tokens.getD 1 "", normalState := ns }

/-- The per-sample analog scaling shared by the three dat parsers
(comtrade_parser.cpp lines 360-371, 420-434 and 484-498):
`engSecondary = a*raw + b`, multiplied by the CT/PT ratio
`primary/secondary` when `secondary` is nonzero and by 1 otherwise. -/
def scaleAnalog (ch : AnalogChannel) (raw : ℚ) : ℚ :=
  let engSecondary := ch.a * raw + ch.b
  let ctPtRatio := if ch.secondary ≠ 0 then ch.primary / ch.secondary else 1
  engSecondary * ctPtRatio

/-- Little-endian `int16_t` read from two bytes, as done by the `memcpy`
into `int16_t` in `parseDatBinary` (comtrade_parser.cpp lines 423-424) on a
little-endian host. -/
def int16le (b0 b1 : ℕ) : ℤ :=
  let u := b0 % 256 + 256 * (b1 % 256)
  if u ≥ 32768 then (u : ℤ) - 65536 else (u : ℤ)

/-- Little-endian `int32_t` read from four bytes, as done by the `memcpy`
into `int32_t` in `parseDatBinary32` (comtrade_parser.cpp lines 487-488) on
a little-endian host. -/
def int32le (b0 b1 b2 b3 : ℕ) : ℤ :=
  let u := b0 % 256 + 256 * (b1 % 256) + 65536 * (b2 % 256) + 16777216 * (b3 % 256)
  if u ≥ 2147483648 then (u : ℤ) - 4294967296 else (u : ℤ)

/-- The analog-value loop of `parseDatAscii` (comtrade_parser.cpp lines
361-372) for the channel list starting at channel position `i`: raw value
`stod(tokens[2+i])`, then the scaling; any conversion failure throws and the
whole line is skipped (`none`). -/
def asciiAnalogValues (tokens : List String) : List AnalogChannel → ℕ → Option (List ℚ)
  | [], _ => some []
  | ch :: rest, i =>
    match stodQ (tokens.getD (2 + i) "") with
    | none => none
    | some raw => (asciiAnalogValues tokens rest (i + 1)).map (scaleAnalog ch raw :: ·)

/-- The analog-value loop of `parseDatBinary` (comtrade_parser.cpp lines
421-434) for the channel list starting at channel position `i`: the raw
value is the little-endian `int16_t` at buffer offset `8 + 2*i`. -/
def binaryAnalogValues (buffer : List ℕ) : List AnalogChannel → ℕ → List ℚ
  | [], _ => []
  | ch :: rest, i =>
    scaleAnalog ch (int16le (buffer.getD (8 + 2 * i) 0) (buffer.getD (8 + 2 * i + 1) 0)) ::
      binaryAnalogValues buffer rest (i + 1)

/-- The analog-value loop of `parseDatBinary32` (comtrade_parser.cpp lines
485-498) for the channel list starting at channel position `i`: the raw
value is the little-endian `int32_t` at buffer offset `8 + 4*i`. -/
def binary32AnalogValues (buffer : List ℕ) : List AnalogChannel → ℕ → List ℚ
  | [], _ => []
  | ch :: rest, i =>
    scaleAnalog ch (int32le (buffer.getD (8 + 4 * i) 0) (buffer.getD (8 + 4 * i + 1) 0)
        (buffer.getD (8 + 4 * i + 2) 0) (buffer.getD (8 + 4 * i + 3) 0)) ::
      binary32AnalogValues buffer rest (i + 1)

/-- The error value produced by a failed `parseCfg` run.  `fixed` is a
`setError` call whose message does not involve the line counter; `atLine`
is the catch-all handler at comtrade_parser.cpp lines 279-282, which embeds
the current 1-based line counter (`what` stands for the `e.what()` text of
the conversion exception, `"stoi"`/`"stod"` under libstdc++). -/
inductive CfgError
  | fixed (msg : String)
  | atLine (n : ℕ) (what : String)
deriving Repr, DecidableEq

/-- The stored `lastError_` string for a cfg parse failure, per the
`setError` call sites and the catch block of `parseCfg`. -/
def renderCfgError : CfgError → String
  | .fixed m => m
  | .atLine n w => "Error parsing .cfg file at line " ++ toString n ++ ": " ++ w

/-- Mutable state of a `parseCfg` run: the unread lines of the file, the
`lineNum` counter, and the `config_` member being filled in. -/
structure CfgCtx where
  lines : List String
  lineNum : ℕ
  config : ComtradeConfig
deriving Repr, DecidableEq

/-- The monad of the `parseCfg` model: early returns and the exception
handler both surface as `CfgError`, threaded over the parser state. -/
abbrev CfgM := ExceptT CfgError (StateM CfgCtx)

/-- One `std::getline(file, line)`: consume the next line or fail with the
call site's `setError` message. -/
def nextLine (err : CfgError) : CfgM String := do
  let ctx ← get
  match ctx.lines with
  | [] => throw err
  | l :: rest => do
    set { ctx with lines := rest }
    pure l

/-- One optional `std::getline(file, line)` (the trigger and time-factor
lines): consume the next line if any. -/
def nextLineOpt : CfgM (Option String) := do
  let ctx ← get
  match ctx.lines with
  | [] => pure none
  | l :: rest => do
    set { ctx with lines := rest }
    pure (some l)

/-- The `lineNum++` statements of `parseCfg`. -/
def bumpLineNum : CfgM Unit := do
  modify fun ctx => { ctx with lineNum := ctx.lineNum + 1 }

/-- Update the `config_` member. -/
def modifyConfig (f : ComtradeConfig → ComtradeConfig) : CfgM Unit := do
  modify fun ctx => { ctx with config := f ctx.config }

/-- A `std::stoi` call inside the `try` block: a conversion failure is the
exception caught at comtrade_parser.cpp lines 279-282 with the current
`lineNum`. -/
def convI (x : Option ℤ) : CfgM ℤ := do
  match x with
  | some v => pure v
  | none => do
    let ctx ← get
    throw (.atLine ctx.lineNum "stoi")

/-- A `std::stod` call inside the `try` block, as `convI`. -/
def convD (x : Option ℚ) : CfgM ℚ := do
  match x with
  | some v => pure v
  | none => do
    let ctx ← get
    throw (.atLine ctx.lineNum "stod")

/-- The trailing-letter stripping for the channel counts of line 2
(comtrade_parser.cpp lines 149-159), e.g. `"16A" -> "16"`.  (`back()` on an
empty token is undefined behaviour in C++; the model leaves the empty token
unchanged.) -/
def stripAlphaSuffix (s : String) : String :=
  match s.data.getLast? with
  | some c => if c.isAlpha then String.mk s.data.dropLast else s
  | none => s

/-- Run `act` `n` times (the channel and sample-rate `for` loops). -/
def repeatM (act : CfgM Unit) : ℕ → CfgM Unit
  | 0 => pure ()
  | n + 1 => do
    act
    repeatM act n

/-- One analog-channel iteration of the cfg parse (comtrade_parser.cpp lines
167-180). -/
def parseOneAnalogLine : CfgM Unit := do
  let line ← nextLine (.fixed "Missing analog channel line")
  bumpLineNum
  match parseAnalogChannelLine line with
  | none => throw (.fixed "Invalid analog channel line")
  | some ch => modifyConfig fun c => { c with analogChannels := c.analogChannels ++ [ch] }

/-- One digital-channel iteration of the cfg parse (comtrade_parser.cpp
lines 184-197). -/
def parseOneDigitalLine : CfgM Unit := do
  let line ← nextLine (.fixed "Missing digital channel line")
  bumpLineNum
  match parseDigitalChannelLine line with
  | none => throw (.fixed "Invalid digital channel line")
  | some ch => modifyConfig fun c => { c with digitalChannels := c.digitalChannels ++ [ch] }

/-- One sample-rate-segment iteration of the cfg parse (comtrade_parser.cpp
lines 216-230): lines with fewer than 2 fields are skipped silently. -/
def parseOneSampleRateLine : CfgM Unit := do
  let line ← nextLine (.fixed "Missing sample rate entry")
  bumpLineNum
  let tokens := splitLine line
  if tokens.length ≥ 2 then do
    let r ← convD (stodQ (tokens.getD 0 ""))
    let es ← convI (stoiQ (tokens.getD 1 ""))
    modifyConfig fun c => { c with sampleRates := c.sampleRates ++ [⟨r, es⟩] }
  else pure ()

/-- `ComtradeParser::parseCfg` (comtrade_parser.cpp lines 109-285), for a
file that opened successfully, over its list of text lines.  Each `setError`
early return is a `throw` of a `fixed` error; each conversion exception is
an `atLine` error with the line counter at the moment of the throw, matching
the catch block at lines 279-282. -/
def parseCfgM : CfgM Unit := do
  let line ← nextLine (.fixed "Empty .cfg file")
  bumpLineNum
  let tokens := splitLine line
  if tokens.length ≥ 2 then do
    modifyConfig fun c =>
      { c with stationName := tokens.getD 0 "", recDeviceId := tokens.getD 1 "" }
    let ry ← if tokens.length ≥ 3 then convI (stoiQ (tokens.getD 2 "")) else pure 1991
    modifyConfig fun c => { c with revisionYear := ry }
  else throw (.fixed "Invalid line 1 format")
  let line ← nextLine (.fixed "Missing line 2")
  bumpLineNum
  let tokens := splitLine line
  if tokens.length ≥ 3 then do
    let tc ← convI (stoiQ (tokens.getD 0 ""))
    modifyConfig fun c => { c with totalChannels := tc }
    let na ← convI (stoiQ (stripAlphaSuffix (tokens.getD 1 "")))
    modifyConfig fun c => { c with numAnalogChannels := na }
    let nd ← convI (stoiQ (stripAlphaSuffix (tokens.getD 2 "")))
    modifyConfig fun c => { c with numDigitalChannels := nd }
  else throw (.fixed "Invalid line 2 format")
  let na := (← get).config.numAnalogChannels
  repeatM parseOneAnalogLine na.toNat
  let nd := (← get).config.numDigitalChannels
  repeatM parseOneDigitalLine nd.toNat
  let line ← nextLine (.fixed "Missing line frequency")
  bumpLineNum
  let f ← convD (stodQ (trimWs line))
  modifyConfig fun c => { c with lineFreq := f }
  let line ← nextLine (.fixed "Missing sample rate line")
  bumpLineNum
  let nsr ← convI (stoiQ (trimWs line))
  modifyConfig fun c => { c with numSampleRates := nsr }
  repeatM parseOneSampleRateLine nsr.toNat
  let line ← nextLine (.fixed "Missing start date")
  bumpLineNum
  let tokens := splitLine line
  if tokens.length ≥ 2 then
    modifyConfig fun c =>
      { c with startDate := tokens.getD 0 "", startTime := tokens.getD 1 "" }
  else pure ()
  match ← nextLineOpt with
  | some _ => bumpLineNum
  | none => pure ()
  let line ← nextLine (.fixed "Missing data file type")
  bumpLineNum
  let formatStr := trimWs line
  if formatStr = "ASCII" then
    modifyConfig fun c => { c with dataFormat := .ASCII }
  else if formatStr = "BINARY" then
    modifyConfig fun c => { c with dataFormat := .BINARY }
  else if formatStr = "BINARY32" then
    modifyConfig fun c => { c with dataFormat := .BINARY32 }
  else throw (.fixed ("Unknown data format: " ++ formatStr))
  match ← nextLineOpt with
  | some line =>
    let trimmed := trimWs line
    if trimmed ≠ "" then do
      let tf ← convD (stodQ trimmed)
      modifyConfig fun c => { c with timeFactor := tf }
    else modifyConfig fun c => { c with timeFactor := 1 }
  | none => modifyConfig fun c => { c with timeFactor := 1 }

/-- Run the cfg parse from a fresh `config_` (the enclosing `load` has just
called `clear()`), returning the outcome and the final `config_` contents
(partial on failure). -/
def parseCfg (lines : List String) : Except CfgError Unit × ComtradeConfig :=
  let out := (parseCfgM.run).run { lines := lines, lineNum := 0, config := {} }
  (out.1, out.2.config)

/-- Observable state of a `ComtradeParser` (comtrade_parser.h lines
184-187). -/
structure ParserState where
  config : ComtradeConfig := {}
  samples : List ComtradeSample := []
  loaded : Bool := false
  lastError : String := ""
deriving Repr, DecidableEq

/-- `ComtradeParser::load` (comtrade_parser.cpp lines 65-107) up to the end
of the cfg stage: `clear()` resets all state, then `parseCfg` runs; on
failure `load` returns `false` with `setError` having stored the message and
cleared `loaded_` — the partially filled `config_` is NOT reset.  The result
is `some finalState` when the cfg parse fails and `none` when it succeeds
(in which case `load` goes on to the dat file, outside this model). -/
def loadCfgStage (lines : List String) : Option ParserState :=
  match parseCfg lines with
  | (.error e, cfgSoFar) =>
    some { config := cfgSoFar, samples := [], loaded := false,
           lastError := renderCfgError e }
  | (.ok _, _) => none

/-! ## Helper lemmas -/

/-- One `incrementSampleCount` step acts as successor modulo `smpRate` while
the invariant `smpCnt < smpRate` holds and `smpRate` fits in `uint16_t`. -/
theorem incrementSampleCount_eq_mod (smpRate c : ℕ) (h2 : smpRate ≤ 65535)
    (hc : c < smpRate) :
    incrementSampleCount smpRate c = (c + 1) % smpRate := by
  unfold incrementSampleCount
  have h65 : (c + 1) % 65536 = c + 1 := Nat.mod_eq_of_lt (by omega)
  simp only [h65]
  by_cases hge : c + 1 ≥ smpRate
  · rw [if_pos hge]
    have he : c + 1 = smpRate := by omega
    rw [he, Nat.mod_self]
  · rw [if_neg hge]
    exact (Nat.mod_eq_of_lt (by omega)).symm

/-- Iterating `incrementSampleCount` from a counter below `smpRate` yields
successive values modulo `smpRate`. -/
theorem incrementSampleCount_iterate (smpRate c : ℕ) (h2 : smpRate ≤ 65535)
    (hc : c < smpRate) :
    ∀ k, (incrementSampleCount smpRate)^[k] c = (c + k) % smpRate := by
  intro k
  induction k with
  | zero => simpa using (Nat.mod_eq_of_lt hc).symm
  | succ k ih =>
    rw [Function.iterate_succ_apply', ih]
    have hlt : (c + k) % smpRate < smpRate := Nat.mod_lt _ (by omega)
    rw [incrementSampleCount_eq_mod smpRate _ h2 hlt, Nat.mod_add_mod]
    congr 1

/-- `normalizeNsec` preserves the represented instant. -/
theorem totalNs_normalizeNsec (t : Timespec) : totalNs (normalizeNsec t) = totalNs t := by
  induction t using normalizeNsec.induct with
  | case1 t h ih =>
    rw [normalizeNsec, if_pos h]
    rw [ih]
    simp only [totalNs]
    ring
  | case2 t h =>
    rw [normalizeNsec, if_neg h]

/-- `normalizeNsec` lands `tv_nsec` in `[0, 10^9)` whenever it starts
nonnegative. -/
theorem normalizeNsec_bounds (t : Timespec) (h0 : 0 ≤ t.tv_nsec) :
    0 ≤ (normalizeNsec t).tv_nsec ∧ (normalizeNsec t).tv_nsec < 1000000000 := by
  induction t using normalizeNsec.induct with
  | case1 t h ih =>
    rw [normalizeNsec, if_pos h]
    exact ih (by simp; omega)
  | case2 t h =>
    rw [normalizeNsec, if_neg h]
    omega

/-! ## Claim C4 -/

/-- Claim C4: for every `smpRate` in the `uint16_t` range with
`smpRate >= 1` and every counter `c < smpRate`, (i) iterating the
post-send increment emits the sequence `c, c+1, ..., (c+k-1) mod smpRate`
over any window; (ii) the counter stays in `[0, smpRate)` at every
observable point; (iii) a single increment wraps to 0 exactly when the
counter reaches `smpRate`; and (iv) starting from 0, after exactly
`smpRate` increments the counter is 0 again (Scenario F). -/
theorem C4_smpCnt_wrap (smpRate c : ℕ) (h1 : 1 ≤ smpRate) (h2 : smpRate ≤ 65535)
    (hc : c < smpRate) :
    (∀ k, (incrementSampleCount smpRate)^[k] c = (c + k) % smpRate) ∧
    (∀ k, (incrementSampleCount smpRate)^[k] c < smpRate) ∧
    (incrementSampleCount smpRate c = 0 ↔ c + 1 = smpRate) ∧
    (incrementSampleCount smpRate)^[smpRate] 0 = 0 := by
  refine ⟨incrementSampleCount_iterate smpRate c h2 hc, ?_, ?_, ?_⟩
  · intro k
    rw [incrementSampleCount_iterate smpRate c h2 hc k]
    exact Nat.mod_lt _ (by omega)
  · rw [incrementSampleCount_eq_mod smpRate c h2 hc]
    constructor
    · intro hz
      have hd : smpRate ∣ c + 1 := Nat.dvd_of_mod_eq_zero hz
      have hge : smpRate ≤ c + 1 := Nat.le_of_dvd (by omega) hd
      omega
    · intro he
      rw [he, Nat.mod_self]
  · rw [incrementSampleCount_iterate smpRate 0 h2 (by omega) smpRate]
    simp

/-- Witness for C4 at `smpRate = 3`, `c = 1`. -/
theorem C4_smpCnt_wrap_witness :
    (1 ≤ 3 ∧ 3 ≤ 65535 ∧ 1 < 3) ∧
    ((∀ k, (incrementSampleCount 3)^[k] 1 = (1 + k) % 3) ∧
     (∀ k, (incrementSampleCount 3)^[k] 1 < 3) ∧
     (incrementSampleCount 3 1 = 0 ↔ 1 + 1 = 3) ∧
     (incrementSampleCount 3)^[3] 0 = 0) :=
  ⟨by decide, C4_smpCnt_wrap 3 1 (by decide) (by decide) (by decide)⟩

/-! ## Claim C9 -/

/-- Claim C9: starting from any instant with normalized `tv_nsec` and any
period `Δ >= 0` nanoseconds, `N` successive `increment_period` steps land
exactly on `t0 + N*Δ` (no accumulated rounding), with `tv_nsec` normalized
into `[0, 10^9)` throughout. -/
theorem C9_timer_no_drift (t0 : Timespec) (Δ : ℤ) (N : ℕ)
    (h0 : 0 ≤ t0.tv_nsec) (h1 : t0.tv_nsec < 1000000000) (hΔ : 0 ≤ Δ) :
    totalNs ((increment_period Δ)^[N] t0) = totalNs t0 + N * Δ ∧
    0 ≤ ((increment_period Δ)^[N] t0).tv_nsec ∧
    ((increment_period Δ)^[N] t0).tv_nsec < 1000000000 := by
  induction N with
  | zero => simpa using ⟨h0, h1⟩
  | succ N ih =>
    rw [Function.iterate_succ_apply']
    obtain ⟨ihT, ihL, ihU⟩ := ih
    refine ⟨?_, ?_⟩
    · rw [increment_period, totalNs_normalizeNsec]
      simp only [totalNs] at ihT ⊢
      push_cast
      linarith
    · rw [increment_period]
      exact normalizeNsec_bounds _ (by simp; omega)

/-- Witness for C9 at `t0 = 5s + 999999999ns`, `Δ = 208333`, `N = 2`. -/
theorem C9_timer_no_drift_witness :
    (0 ≤ (Timespec.mk 5 999999999).tv_nsec ∧
     (Timespec.mk 5 999999999).tv_nsec < 1000000000 ∧ (0:ℤ) ≤ 208333) ∧
    (totalNs ((increment_period 208333)^[2] (Timespec.mk 5 999999999)) =
       totalNs (Timespec.mk 5 999999999) + 2 * 208333 ∧
     0 ≤ ((increment_period 208333)^[2] (Timespec.mk 5 999999999)).tv_nsec ∧
     ((increment_period 208333)^[2] (Timespec.mk 5 999999999)).tv_nsec < 1000000000) :=
  ⟨by decide, C9_timer_no_drift (Timespec.mk 5 999999999) 208333 2
    (by decide) (by decide) (by decide)⟩

/-! ## Claim C3 -/

/-- The ASCII analog loop starting at channel position `i0`: element `i` of
a successful result is the scaled value of the raw value parsed from token
`2 + (i0 + i)`. -/
theorem asciiAnalogValues_spec (tokens : List String) :
    ∀ (channels : List AnalogChannel) (i0 : ℕ) (vals : List ℚ),
      asciiAnalogValues tokens channels i0 = some vals →
      ∀ i, i < channels.length →
        ∃ raw : ℚ, stodQ (tokens.getD (2 + (i0 + i)) "") = some raw ∧
          vals.getD i 0 = scaleAnalog (channels.getD i {}) raw := by
  intro channels
  induction channels with
  | nil => intro i0 vals _ i hi; simp at hi
  | cons ch rest ih =>
    intro i0 vals hv i hi
    rw [asciiAnalogValues] at hv
    cases hs : stodQ (tokens.getD (2 + i0) "") with
    | none => rw [hs] at hv; simp at hv
    | some raw =>
      rw [hs] at hv
      simp only [Option.map_eq_some'] at hv
      obtain ⟨vals', hv', rfl⟩ := hv
      cases i with
      | zero => exact ⟨raw, by simpa using hs, by simp⟩
      | succ j =>
        have hj : j < rest.length := by simpa using hi
        obtain ⟨raw', hs', he'⟩ := ih (i0 + 1) vals' hv' j hj
        refine ⟨raw', ?_, by simpa using he'⟩
        have : 2 + (i0 + 1 + j) = 2 + (i0 + (j + 1)) := by omega
        rwa [this] at hs'

/-- The BINARY analog loop starting at channel position `i0`: element `i`
is the scaled little-endian `int16_t` at buffer offset `8 + 2*(i0+i)`. -/
theorem binaryAnalogValues_spec (buffer : List ℕ) :
    ∀ (channels : List AnalogChannel) (i0 i : ℕ), i < channels.length →
      (binaryAnalogValues buffer channels i0).getD i 0 =
        scaleAnalog (channels.getD i {})
          ((int16le (buffer.getD (8 + 2 * (i0 + i)) 0)
            (buffer.getD (8 + 2 * (i0 + i) + 1) 0) : ℚ)) := by
  intro channels
  induction channels with
  | nil => intro i0 i hi; simp at hi
  | cons ch rest ih =>
    intro i0 i hi
    cases i with
    | zero => simp [binaryAnalogValues]
    | succ j =>
      have hj : j < rest.length := by simpa using hi
      have := ih (i0 + 1) j hj
      have harg : i0 + 1 + j = i0 + (j + 1) := by omega
      rw [harg] at this
      simpa [binaryAnalogValues] using this

/-- The BINARY32 analog loop starting at channel position `i0`: element `i`
is the scaled little-endian `int32_t` at buffer offset `8 + 4*(i0+i)`. -/
theorem binary32AnalogValues_spec (buffer : List ℕ) :
    ∀ (channels : List AnalogChannel) (i0 i : ℕ), i < channels.length →
      (binary32AnalogValues buffer channels i0).getD i 0 =
        scaleAnalog (channels.getD i {})
          ((int32le (buffer.getD (8 + 4 * (i0 + i)) 0)
            (buffer.getD (8 + 4 * (i0 + i) + 1) 0)
            (buffer.getD (8 + 4 * (i0 + i) + 2) 0)
            (buffer.getD (8 + 4 * (i0 + i) + 3) 0) : ℚ)) := by
  intro channels
  induction channels with
  | nil => intro i0 i hi; simp at hi
  | cons ch rest ih =>
    intro i0 i hi
    cases i with
    | zero => simp [binary32AnalogValues]
    | succ j =>
      have hj : j < rest.length := by simpa using hi
      have := ih (i0 + 1) j hj
      have harg : i0 + 1 + j = i0 + (j + 1) := by omega
      rw [harg] at this
      simpa [binary32AnalogValues] using this

/-- Claim C3: in each of the three dat formats, the stored engineering value
of analog channel `i` equals `(a*raw + b)` multiplied by
`primary/secondary` when `secondary` is nonzero and by 1 when it is zero,
where `raw` is the raw value that format parses for that channel. -/
theorem C3_analog_scaling (channels : List AnalogChannel) (tokens : List String)
    (buffer : List ℕ) (i : ℕ) (hi : i < channels.length) :
    (∀ vals, asciiAnalogValues tokens channels 0 = some vals →
      ∃ raw : ℚ, stodQ (tokens.getD (2 + i) "") = some raw ∧
        vals.getD i 0 =
          ((channels.getD i {}).a * raw + (channels.getD i {}).b) *
          (if (channels.getD i {}).secondary ≠ 0
           then (channels.getD i {}).primary / (channels.getD i {}).secondary else 1)) ∧
    ((binaryAnalogValues buffer channels 0).getD i 0 =
      ((channels.getD i {}).a *
          (int16le (buffer.getD (8 + 2 * i) 0) (buffer.getD (8 + 2 * i + 1) 0) : ℚ) +
        (channels.getD i {}).b) *
      (if (channels.getD i {}).secondary ≠ 0
       then (channels.getD i {}).primary / (channels.getD i {}).secondary else 1)) ∧
    ((binary32AnalogValues buffer channels 0).getD i 0 =
      ((channels.getD i {}).a *
          (int32le (buffer.getD (8 + 4 * i) 0) (buffer.getD (8 + 4 * i + 1) 0)
            (buffer.getD (8 + 4 * i + 2) 0) (buffer.getD (8 + 4 * i + 3) 0) : ℚ) +
        (channels.getD i {}).b) *
      (if (channels.getD i {}).secondary ≠ 0
       then (channels.getD i {}).primary / (channels.getD i {}).secondary else 1)) := by
  refine ⟨?_, ?_, ?_⟩
  · intro vals hv
    obtain ⟨raw, hs, he⟩ := asciiAnalogValues_spec tokens channels 0 vals hv i hi
    refine ⟨raw, by simpa using hs, ?_⟩
    rw [he, scaleAnalog]
  · have := binaryAnalogValues_spec buffer channels 0 i hi
    simp only [Nat.zero_add] at this
    rw [this, scaleAnalog]
  · have := binary32AnalogValues_spec buffer channels 0 i hi
    simp only [Nat.zero_add] at this
    rw [this, scaleAnalog]

/-- Witness for C3 with the Scenario B channel (`a = 1/2`, `b = 10`,
`primary = 1000`, `secondary = 5`), empty tokens and a zero buffer. -/
theorem C3_analog_scaling_witness :
    0 < ([{ a := 1/2, b := 10, primary := 1000, secondary := 5 }] : List AnalogChannel).length ∧
    ((∀ vals, asciiAnalogValues []
        [({ a := 1/2, b := 10, primary := 1000, secondary := 5 } : AnalogChannel)] 0 = some vals →
      ∃ raw : ℚ, stodQ (([] : List String).getD 2 "") = some raw ∧
        vals.getD 0 0 =
          ((([{ a := 1/2, b := 10, primary := 1000, secondary := 5 }] :
              List AnalogChannel).getD 0 {}).a * raw +
            (([{ a := 1/2, b := 10, primary := 1000, secondary := 5 }] :
              List AnalogChannel).getD 0 {}).b) *
          (if (([{ a := 1/2, b := 10, primary := 1000, secondary := 5 }] :
              List AnalogChannel).getD 0 {}).secondary ≠ 0
           then (([{ a := 1/2, b := 10, primary := 1000, secondary := 5 }] :
              List AnalogChannel).getD 0 {}).primary /
             (([{ a := 1/2, b := 10, primary := 1000, secondary := 5 }] :
              List AnalogChannel).getD 0 {}).secondary else 1)) ∧
      ((binaryAnalogValues []
          [({ a := 1/2, b := 10, primary := 1000, secondary := 5 } : AnalogChannel)] 0).getD 0 0 =
        ((([{ a := 1/2, b := 10, primary := 1000, secondary := 5 }] :
            List AnalogChannel).getD 0 {}).a *
            (int16le (([] : List ℕ).getD (8 + 2 * 0) 0) (([] : List ℕ).getD (8 + 2 * 0 + 1) 0) : ℚ) +
          (([{ a := 1/2, b := 10, primary := 1000, secondary := 5 }] :
            List AnalogChannel).getD 0 {}).b) *
        (if (([{ a := 1/2, b := 10, primary := 1000, secondary := 5 }] :
            List AnalogChannel).getD 0 {}).secondary ≠ 0
         then (([{ a := 1/2, b := 10, primary := 1000, secondary := 5 }] :
            List AnalogChannel).getD 0 {}).primary /
           (([{ a := 1/2, b := 10, primary := 1000, secondary := 5 }] :
            List AnalogChannel).getD 0 {}).secondary else 1)) ∧
      ((binary32AnalogValues []
          [({ a := 1/2, b := 10, primary := 1000, secondary := 5 } : AnalogChannel)] 0).getD 0 0 =
        ((([{ a := 1/2, b := 10, primary := 1000, secondary := 5 }] :
            List AnalogChannel).getD 0 {}).a *
            (int32le (([] : List ℕ).getD (8 + 4 * 0) 0) (([] : List ℕ).getD (8 + 4 * 0 + 1) 0)
              (([] : List ℕ).getD (8 + 4 * 0 + 2) 0) (([] : List ℕ).getD (8 + 4 * 0 + 3) 0) : ℚ) +
          (([{ a := 1/2, b := 10, primary := 1000, secondary := 5 }] :
            List AnalogChannel).getD 0 {}).b) *
        (if (([{ a := 1/2, b := 10, primary := 1000, secondary := 5 }] :
            List AnalogChannel).getD 0 {}).secondary ≠ 0
         then (([{ a := 1/2, b := 10, primary := 1000, secondary := 5 }] :
            List AnalogChannel).getD 0 {}).primary /
           (([{ a := 1/2, b := 10, primary := 1000, secondary := 5 }] :
            List AnalogChannel).getD 0 {}).secondary else 1))) :=
  ⟨Nat.zero_lt_one, C3_analog_scaling
    [({ a := 1/2, b := 10, primary := 1000, secondary := 5 } : AnalogChannel)] [] [] 0
    Nat.zero_lt_one⟩

/-! ## Claims C5 and C6 -/

/-- `data[0]` through the default accessor. -/
theorem listHeadD_eq_getD {α : Type} (l : List α) (d : α) : l.headD d = l.getD 0 d := by
  cases l <;> simp

/-- `data.back()` through the default accessor. -/
theorem listGetLastD_eq_getD {α : Type} (l : List α) (d : α) (h : l ≠ []) :
    l.getLastD d = l.getD (l.length - 1) d := by
  induction l with
  | nil => simp at h
  | cons a t ih =>
    cases t with
    | nil => simp
    | cons b t' =>
      have h2 := ih (by simp)
      simpa using h2

/-- Evaluation lemma: Scenario D of the specification, resampling the input
channel `[0,1,2,3]` from 1000 Hz to 2000 Hz. -/
theorem resampleData_scenarioD :
    resampleData [[0, 1, 2, 3]] 1000 2000 = [[0, 1/2, 1, 3/2, 2, 5/2, 3, 3]] := by
  have h8 : (⌈(([[(0:ℚ), 1, 2, 3]].headD []).length : ℚ) * ((2000:ℚ) / 1000)⌉).toNat = 8 := by
    rw [show (⌈(([[(0:ℚ), 1, 2, 3]].headD []).length : ℚ) * ((2000:ℚ) / 1000)⌉) = 8 from by
      norm_num]
    rfl
  rw [resampleData, if_neg (by simp)]
  show [(List.range (⌈(([[(0:ℚ), 1, 2, 3]].headD []).length : ℚ) * ((2000:ℚ)/1000)⌉).toNat).map
    fun i : ℕ => interpolateLinear [0,1,2,3] ((i : ℚ) / ((2000:ℚ)/1000))] = _
  rw [h8]
  rw [show List.range 8 = [0,1,2,3,4,5,6,7] from by rfl]
  simp only [List.map]
  rw [interpolateLinear, interpolateLinear, interpolateLinear, interpolateLinear,
    interpolateLinear, interpolateLinear, interpolateLinear, interpolateLinear]
  norm_num [show ⌊(1:ℚ)/2⌋ = 0 from by norm_num, show ⌊(3:ℚ)/2⌋ = 1 from by norm_num,
    show ⌊(5:ℚ)/2⌋ = 2 from by norm_num, show ((2:ℕ):ℚ) = 2 from by norm_num,
    show Int.toNat 2 = 2 from rfl]
  simp

/-- Claim C6: for a non-empty channel vector, the interpolated value at
position `x` is `data[0]` when `x <= 0`, `data[n-1]` when `x >= n-1`, and
otherwise `data[i]*(1-f) + data[i+1]*f` with `i = floor x`, `f = x - i`
(and both accesses in bounds); and Scenario D holds: input `[0,1,2,3]`
resampled from 1000 Hz to 2000 Hz yields `[0,0.5,1,1.5,2,2.5,3,3]`. -/
theorem C6_interpolateLinear_spec (data : List ℚ) (hne : data ≠ []) (x : ℚ) :
    (x ≤ 0 → interpolateLinear data x = data.getD 0 0) ∧
    ((data.length : ℚ) - 1 ≤ x → interpolateLinear data x = data.getD (data.length - 1) 0) ∧
    (0 < x → x < (data.length : ℚ) - 1 →
      interpolateLinear data x =
        data.getD ⌊x⌋.toNat 0 * (1 - (x - (⌊x⌋ : ℚ))) +
          data.getD (⌊x⌋.toNat + 1) 0 * (x - (⌊x⌋ : ℚ)) ∧
      ⌊x⌋.toNat + 1 ≤ data.length - 1) ∧
    resampleData [[0, 1, 2, 3]] 1000 2000 = [[0, 1/2, 1, 3/2, 2, 5/2, 3, 3]] := by
  have hlen : 1 ≤ data.length := List.length_pos.mpr hne
  refine ⟨?_, ?_, ?_, resampleData_scenarioD⟩
  · intro hx
    rw [interpolateLinear, if_neg hne, if_pos hx, listHeadD_eq_getD]
  · intro hx
    by_cases hx0 : x ≤ 0
    · have hn1 : data.length = 1 := by
        have : (data.length : ℚ) ≤ 1 := by linarith
        exact_mod_cast le_antisymm (by exact_mod_cast this) hlen
      rw [interpolateLinear, if_neg hne, if_pos hx0, listHeadD_eq_getD, hn1]
    · rw [interpolateLinear, if_neg hne, if_neg hx0, if_pos hx,
        listGetLastD_eq_getD data 0 hne]
  · intro hx0 hx1
    have hfl : (0:ℤ) ≤ ⌊x⌋ := Int.floor_nonneg.mpr (le_of_lt hx0)
    have hfu : ⌊x⌋ < (data.length : ℤ) - 1 := by
      apply Int.floor_lt.mpr
      push_cast
      linarith
    constructor
    · rw [interpolateLinear, if_neg hne, if_neg (by linarith), if_neg (by linarith)]
    · omega

/-- Witness for C6 at `data = [0, 1]`, `x = 1/2`. -/
theorem C6_interpolateLinear_spec_witness :
    (([0, 1] : List ℚ) ≠ []) ∧
    ((1/2 ≤ (0:ℚ) → interpolateLinear [0, 1] (1/2) = ([0, 1] : List ℚ).getD 0 0) ∧
     ((([0, 1] : List ℚ).length : ℚ) - 1 ≤ 1/2 →
        interpolateLinear [0, 1] (1/2) = ([0, 1] : List ℚ).getD (([0, 1] : List ℚ).length - 1) 0) ∧
     (0 < (1/2 : ℚ) → (1/2 : ℚ) < (([0, 1] : List ℚ).length : ℚ) - 1 →
        interpolateLinear [0, 1] (1/2) =
          ([0, 1] : List ℚ).getD ⌊(1/2 : ℚ)⌋.toNat 0 * (1 - (1/2 - (⌊(1/2 : ℚ)⌋ : ℚ))) +
            ([0, 1] : List ℚ).getD (⌊(1/2 : ℚ)⌋.toNat + 1) 0 * (1/2 - (⌊(1/2 : ℚ)⌋ : ℚ)) ∧
        ⌊(1/2 : ℚ)⌋.toNat + 1 ≤ ([0, 1] : List ℚ).length - 1) ∧
     resampleData [[0, 1, 2, 3]] 1000 2000 = [[0, 1/2, 1, 3/2, 2, 5/2, 3, 3]]) :=
  ⟨by decide, C6_interpolateLinear_spec [0, 1] (by decide) (1/2)⟩

/-- At ratio 1 the interpolation map reproduces a channel of length `n`
element for element. -/
theorem interpolate_identity (ch : List ℚ) (n : ℕ) (hlen : ch.length = n) (hn : 1 ≤ n) :
    (List.range n).map (fun i : ℕ => interpolateLinear ch ((i : ℚ))) = ch := by
  have hne : ch ≠ [] := by
    intro h
    rw [h] at hlen
    simp at hlen
    omega
  apply List.ext_getElem
  · simpa using hlen.symm
  · intro i h1 h2
    simp only [List.getElem_map, List.getElem_range]
    have hi : i < n := by simpa using h1
    rcases Nat.eq_zero_or_pos i with hz | hpos
    · subst hz
      rw [interpolateLinear, if_neg hne, if_pos (by norm_num), listHeadD_eq_getD,
        List.getD_eq_getElem?_getD, List.getElem?_eq_getElem h2, Option.getD_some]
    · by_cases hlast : i = n - 1
      · have hc : ((ch.length : ℚ) - 1) ≤ (i : ℚ) := by
          rw [hlen, hlast]
          have hcast : (((n - 1 : ℕ)) : ℚ) = (n : ℚ) - 1 := by
            push_cast [Nat.cast_sub hn]
            ring
          rw [← hcast]
        rw [interpolateLinear, if_neg hne,
          if_neg (not_le.mpr (by exact_mod_cast hpos)),
          if_pos hc, listGetLastD_eq_getD ch 0 hne,
          List.getD_eq_getElem?_getD, List.getElem?_eq_getElem (by omega), Option.getD_some]
        congr 1
        omega
      · have hmid : (i : ℚ) < (ch.length : ℚ) - 1 := by
          rw [hlen]
          have hlt : i < n - 1 := by omega
          have h2c : (i : ℚ) < ((n - 1 : ℕ) : ℚ) := by exact_mod_cast hlt
          have hcast : (((n - 1 : ℕ)) : ℚ) = (n : ℚ) - 1 := by
            push_cast [Nat.cast_sub hn]
            ring
          linarith [hcast ▸ h2c]
        rw [interpolateLinear, if_neg hne,
          if_neg (not_le.mpr (by exact_mod_cast hpos)),
          if_neg (not_le.mpr hmid)]
        have hfl : ⌊(i : ℚ)⌋ = (i : ℤ) := Int.floor_natCast i
        simp only [hfl, Int.toNat_natCast, Int.cast_natCast, sub_self]
        rw [List.getD_eq_getElem?_getD, List.getElem?_eq_getElem h2, Option.getD_some]
        ring

/-- Claim C5: on a non-empty rectangular matrix with positive rates, every
resampled channel has length `ceil(inputSamples * outputRate / inputRate)`,
and at equal rates the resampler is the identity. -/
theorem C5_resample_length_and_identity (input : List (List ℚ)) (inR outR : ℚ) (n : ℕ)
    (hne : input ≠ []) (hrect : ∀ ch ∈ input, ch.length = n) (hn : 1 ≤ n)
    (hin : 0 < inR) :
    (∀ ch ∈ resampleData input inR outR,
        ch.length = (⌈(n : ℚ) * (outR / inR)⌉).toNat) ∧
    (outR = inR → resampleData input inR outR = input) := by
  cases input with
  | nil => exact absurd rfl hne
  | cons h t =>
    have hhlen : h.length = n := hrect h (by simp)
    have hhne : h ≠ [] := by
      intro hemp
      rw [hemp] at hhlen
      simp at hhlen
      omega
    have hguard : ¬((h :: t : List (List ℚ)) = [] ∨ (h :: t).headD [] = []) := by
      simp [hhne]
    rw [resampleData, if_neg hguard]
    simp only [List.headD_cons, hhlen]
    constructor
    · intro ch hmem
      simp only [List.mem_map] at hmem
      obtain ⟨ch0, _, rfl⟩ := hmem
      simp
    · intro he
      subst he
      have hone : outR / outR = 1 := div_self (ne_of_gt hin)
      simp only [hone, mul_one, div_one, Int.ceil_natCast, Int.toNat_natCast]
      have : ∀ ch ∈ (h :: t : List (List ℚ)),
          ((List.range n).map fun i : ℕ => interpolateLinear ch ((i : ℚ))) = ch := by
        intro ch hm
        exact interpolate_identity ch n (hrect ch hm) hn
      calc (h :: t).map (fun ch => (List.range n).map fun i : ℕ =>
              interpolateLinear ch ((i : ℚ)))
          = (h :: t).map id := List.map_congr_left fun ch hm => this ch hm
        _ = h :: t := List.map_id _

/-- Witness for C5 at `input = [[3, 7]]`, rates 1000 and 1000. -/
theorem C5_resample_length_and_identity_witness :
    (([[3, 7]] : List (List ℚ)) ≠ [] ∧ (∀ ch ∈ ([[3, 7]] : List (List ℚ)), ch.length = 2) ∧
      1 ≤ 2 ∧ (0:ℚ) < 1000) ∧
    ((∀ ch ∈ resampleData [[3, 7]] 1000 1000,
        ch.length = (⌈((2:ℕ) : ℚ) * ((1000:ℚ) / 1000)⌉).toNat) ∧
     ((1000:ℚ) = 1000 → resampleData [[3, 7]] 1000 1000 = [[3, 7]])) :=
  ⟨⟨by decide, by decide, by decide, by norm_num⟩,
    C5_resample_length_and_identity [[3, 7]] 1000 1000 2 (by decide) (by decide)
      (by decide) (by norm_num)⟩

/-! ## Claim C2 -/

/-- Length of the short-or-0x81 BER length encoding. -/
theorem lenShortOr81_length (m : ℕ) : (lenShortOr81 m).length = if m > 127 then 2 else 1 := by
  unfold lenShortOr81
  split <;> simp

/-- Length of the outer BER length encoding agrees with the `lengthBytes`
computation in `buildPacket`. -/
theorem lenOuter_length (m : ℕ) : (lenOuter m).length = outerLengthBytes m := by
  unfold lenOuter outerLengthBytes
  split_ifs <;> simp

/-- The seqData block is always 64 bytes. -/
theorem seqDataBytes_length (samples : ℕ → ℤ) (qualities : ℕ → ℕ) :
    (seqDataBytes samples qualities).length = 64 := by
  simp [seqDataBytes, List.range_succ, int32Bytes, word32Bytes]

/-- The ASDU body is `85 + |svID|` bytes. -/
theorem asduDataBytes_length (svID : List ℕ) (smpCnt confRev smpSynch smpRate : ℕ)
    (samples : ℕ → ℤ) (qualities : ℕ → ℕ) :
    (asduDataBytes svID smpCnt confRev smpSynch smpRate samples qualities).length =
      85 + svID.length := by
  simp [asduDataBytes, be16Bytes, word32Bytes, seqDataBytes_length]
  omega

/-- Recompose a 16-bit value from its big-endian bytes. -/
theorem nat16_recompose (t : ℕ) (h : t < 65536) : (t >>> 8) % 256 * 256 + t % 256 = t := by
  rw [Nat.shiftRight_eq_div_pow]
  omega

/-- Claim C2 (amended): for every packet built by `buildPacket` with an svID
of at most 255 bytes, the 2-byte total-length header field equals
`4 + 1 + lenBytes + savpduLen + 4` — the Reserved words, the 0x60 tag, its
BER length bytes, the SAVPDU body, and additionally the 4 bytes of the APPID
and length fields themselves — equivalently, the whole packet length minus
the 2 EtherType bytes; it does NOT equal `4 + 1 + lenBytes + savpduLen`. -/
theorem C2_total_length_field (appID noAsdu : ℕ) (svID : List ℕ)
    (smpCnt confRev smpSynch smpRate : ℕ) (samples : ℕ → ℤ) (qualities : ℕ → ℕ)
    (hsv : svID.length ≤ 255) :
    packetLengthField
        (buildPacketBytes appID noAsdu svID smpCnt confRev smpSynch smpRate samples qualities) =
      4 + 1 +
        (lenOuter (savpduBytes noAsdu svID smpCnt confRev smpSynch smpRate
          samples qualities).length).length +
        (savpduBytes noAsdu svID smpCnt confRev smpSynch smpRate samples qualities).length + 4 ∧
    packetLengthField
        (buildPacketBytes appID noAsdu svID smpCnt confRev smpSynch smpRate samples qualities) =
      (buildPacketBytes appID noAsdu svID smpCnt confRev smpSynch smpRate
        samples qualities).length - 2 := by
  set A := (asduDataBytes svID smpCnt confRev smpSynch smpRate samples qualities).length with hA
  set S := (seqAsduBytes svID smpCnt confRev smpSynch smpRate samples qualities).length with hS
  set P := (savpduBytes noAsdu svID smpCnt confRev smpSynch smpRate samples qualities).length
    with hP
  have hAv : A = 85 + svID.length := by
    rw [hA, asduDataBytes_length]
  have hSv : S = 1 + (lenShortOr81 A).length + A := by
    rw [hS, seqAsduBytes]
    simp [hA]
    omega
  have hPv : P = 4 + (lenShortOr81 S).length + S := by
    rw [hP, savpduBytes]
    simp [hS]
    omega
  have hls1 : (lenShortOr81 A).length ≤ 2 := by rw [lenShortOr81_length]; split <;> omega
  have hls2 : (lenShortOr81 S).length ≤ 2 := by rw [lenShortOr81_length]; split <;> omega
  have hPb : P ≤ 349 := by omega
  have hob : outerLengthBytes P ≤ 3 := by unfold outerLengthBytes; split_ifs <;> omega
  have htl : 4 + 1 + outerLengthBytes P + P + 4 < 65536 := by omega
  have hmod : (4 + 1 + outerLengthBytes P + P + 4) % 65536 =
      4 + 1 + outerLengthBytes P + P + 4 := Nat.mod_eq_of_lt htl
  have hfield : packetLengthField
      (buildPacketBytes appID noAsdu svID smpCnt confRev smpSynch smpRate samples qualities) =
      4 + 1 + outerLengthBytes P + P + 4 := by
    rw [buildPacketBytes]
    simp only [← hP, packetLengthField, be16Bytes, hmod, List.cons_append, List.nil_append,
      List.getD_cons_succ, List.getD_cons_zero]
    exact nat16_recompose _ (by omega)
  constructor
  · rw [hfield, lenOuter_length]
  · have hplen : (buildPacketBytes appID noAsdu svID smpCnt confRev smpSynch smpRate
        samples qualities).length = 2 + 2 + 2 + 4 + 1 + (lenOuter P).length + P := by
      rw [buildPacketBytes]
      simp only [← hP, be16Bytes, List.length_append, List.length_cons]
      simp
      omega
    rw [hfield, hplen, lenOuter_length]
    omega

/-- Counterexample to claim C2 as stated: for the Scenario C inputs
(svID "TestSV01", appID 0x4000, smpRate 4800, smpCnt 0, zero channels) the
SAVPDU body is 100 bytes with a single outer BER length byte, yet the
total-length field carries 110 = 4+1+1+100+4, not 4+1+1+100 = 106. -/
theorem C2_total_length_field_counterexample :
    packetLengthField
        (buildPacketBytes 0x4000 1 [84, 101, 115, 116, 83, 86, 48, 49] 0 1 1 4800
          (fun _ => 0) (fun _ => 0)) = 110 ∧
    (savpduBytes 1 [84, 101, 115, 116, 83, 86, 48, 49] 0 1 1 4800
        (fun _ => 0) (fun _ => 0)).length = 100 ∧
    (lenOuter (savpduBytes 1 [84, 101, 115, 116, 83, 86, 48, 49] 0 1 1 4800
        (fun _ => 0) (fun _ => 0)).length).length = 1 ∧
    packetLengthField
        (buildPacketBytes 0x4000 1 [84, 101, 115, 116, 83, 86, 48, 49] 0 1 1 4800
          (fun _ => 0) (fun _ => 0)) ≠
      4 + 1 +
        (lenOuter (savpduBytes 1 [84, 101, 115, 116, 83, 86, 48, 49] 0 1 1 4800
          (fun _ => 0) (fun _ => 0)).length).length +
        (savpduBytes 1 [84, 101, 115, 116, 83, 86, 48, 49] 0 1 1 4800
          (fun _ => 0) (fun _ => 0)).length := by
  refine ⟨by decide, by decide, by decide, by decide⟩

/-- Witness for the amended C2 at the Scenario C inputs. -/
theorem C2_total_length_field_witness :
    ([84, 101, 115, 116, 83, 86, 48, 49] : List ℕ).length ≤ 255 ∧
    (packetLengthField
        (buildPacketBytes 0x4000 1 [84, 101, 115, 116, 83, 86, 48, 49] 0 1 1 4800
          (fun _ => 0) (fun _ => 0)) =
      4 + 1 +
        (lenOuter (savpduBytes 1 [84, 101, 115, 116, 83, 86, 48, 49] 0 1 1 4800
          (fun _ => 0) (fun _ => 0)).length).length +
        (savpduBytes 1 [84, 101, 115, 116, 83, 86, 48, 49] 0 1 1 4800
          (fun _ => 0) (fun _ => 0)).length + 4 ∧
     packetLengthField
        (buildPacketBytes 0x4000 1 [84, 101, 115, 116, 83, 86, 48, 49] 0 1 1 4800
          (fun _ => 0) (fun _ => 0)) =
      (buildPacketBytes 0x4000 1 [84, 101, 115, 116, 83, 86, 48, 49] 0 1 1 4800
        (fun _ => 0) (fun _ => 0)).length - 2) :=
  ⟨by decide, C2_total_length_field 0x4000 1 [84, 101, 115, 116, 83, 86, 48, 49] 0 1 1 4800
    (fun _ => 0) (fun _ => 0) (by decide)⟩

/-! ## Claim C1 -/

/-- Claim C1 evaluation (code bug): in COMTRADE replay mode the emitted
INT32 sample is NOT the pre-computed resampled value.  With
`resampledData[0][0] = 100`, `smpCnt = 0`, `smpRate = 4800`, the transmission
loop hands `(100, 0)` to `buildPacket` as a phasor, and `buildPacket`
synthesizes `int32(100 * 1.414213562 * cos 0) = 141`, contradicting both the
claim and the loop's own comment "Use INT32 value directly". -/
theorem C1_replay_sample_synthesized :
    replayEmittedSample (fun _ _ => 100) 0 0 0 4800 = 141 ∧
    replayPhasor (fun _ _ => 100) 0 0 = (100, 0) ∧ (141 : ℤ) ≠ 100 := by
  refine ⟨?_, rfl, by decide⟩
  unfold replayEmittedSample phasorSampleValue cppTruncToInt replayPhasor
  norm_num

/-! ## Claims C7 and C10: GOOSE decoder lemmas -/

/-- A checked byte access succeeds exactly on in-range indices. -/
theorem byteAt_isSome_of_lt (packet : List ℕ) (i : ℕ) (h : i < packet.length) :
    ∃ v, byteAt packet i = some v := by
  unfold byteAt
  rcases List.get?_eq_get h with he
  exact ⟨packet.get ⟨i, h⟩ % 256, by rw [he]; rfl⟩

/-- The TLV length parse succeeds whenever its entry guard
`offset < packet.length` holds, and advances the offset by 1 to 3 bytes. -/
theorem readFieldLen_some (packet : List ℕ) (offset : ℕ) (h : offset < packet.length) :
    ∃ fl o2, readFieldLen packet offset = some (fl, o2) ∧
      offset + 1 ≤ o2 ∧ o2 ≤ offset + 3 := by
  obtain ⟨b, hb⟩ := byteAt_isSome_of_lt packet offset h
  unfold readFieldLen
  rw [hb]
  simp only [Option.pure_def, Option.bind_eq_bind, Option.some_bind]
  by_cases hhi : b &&& 0x80 ≠ 0
  · rw [if_pos hhi]
    by_cases h1 : b &&& 0x7F = 1 ∧ offset + 1 < packet.length
    · rw [if_pos h1]
      obtain ⟨v, hv⟩ := byteAt_isSome_of_lt packet (offset + 1) h1.2
      rw [hv]
      exact ⟨v, offset + 2, rfl, by omega, by omega⟩
    · rw [if_neg h1]
      by_cases h2 : b &&& 0x7F = 2 ∧ offset + 1 + 1 < packet.length
      · rw [if_pos h2]
        obtain ⟨hi, hhiv⟩ := byteAt_isSome_of_lt packet (offset + 1) (by omega)
        obtain ⟨lo, hlov⟩ := byteAt_isSome_of_lt packet (offset + 1 + 1) (by omega)
        rw [hhiv, hlov]
        exact ⟨hi * 256 + lo, offset + 3, rfl, by omega, by omega⟩
      · rw [if_neg h2]
        exact ⟨0, offset + 1, rfl, by omega, by omega⟩
  · rw [if_neg hhi]
    exact ⟨b, offset + 1, rfl, by omega, by omega⟩

/-- The big-endian u32 read succeeds when its four bytes are in range. -/
theorem readU32_some (packet : List ℕ) (off : ℕ) (h : off + 4 ≤ packet.length) :
    ∃ v, readU32 packet off = some v := by
  obtain ⟨b0, h0⟩ := byteAt_isSome_of_lt packet off (by omega)
  obtain ⟨b1, h1⟩ := byteAt_isSome_of_lt packet (off + 1) (by omega)
  obtain ⟨b2, h2⟩ := byteAt_isSome_of_lt packet (off + 2) (by omega)
  obtain ⟨b3, h3⟩ := byteAt_isSome_of_lt packet (off + 3) (by omega)
  unfold readU32
  rw [h0, h1, h2, h3]
  exact ⟨_, rfl⟩

/-- The per-tag extraction never fails under the loop's overrun guard. -/
theorem gooseUpdateField_some (packet : List ℕ) (tag fieldLen offset : ℕ)
    (msg : GooseMessage) (h : offset + fieldLen ≤ packet.length) :
    ∃ m2, gooseUpdateField packet tag fieldLen offset msg = some m2 := by
  unfold gooseUpdateField
  split_ifs with h80 h81 hf4 h82 h85 hf4b h86 hf4c
  · exact ⟨_, rfl⟩
  · obtain ⟨v, hv⟩ := readU32_some packet offset (by omega)
    rw [hv]
    exact ⟨_, rfl⟩
  · exact ⟨_, rfl⟩
  · exact ⟨_, rfl⟩
  · obtain ⟨v, hv⟩ := readU32_some packet offset (by omega)
    rw [hv]
    exact ⟨_, rfl⟩
  · exact ⟨_, rfl⟩
  · obtain ⟨v, hv⟩ := readU32_some packet offset (by omega)
    rw [hv]
    exact ⟨_, rfl⟩
  · exact ⟨_, rfl⟩
  · exact ⟨_, rfl⟩

/-- The TLV loop never fails when given at least `packet.length - offset`
fuel: every byte access is guarded, and the offset advances by at least 2
per iteration. -/
theorem goosePduLoop_isSome (packet : List ℕ) (pduEnd : ℕ) :
    ∀ (fuel offset : ℕ) (msg : GooseMessage), packet.length ≤ fuel + offset →
      ∃ m, goosePduLoop packet pduEnd fuel offset msg = some m := by
  intro fuel
  induction fuel with
  | zero =>
    intro offset msg hf
    unfold goosePduLoop
    rw [if_neg (by omega)]
    exact ⟨msg, rfl⟩
  | succ fuel ih =>
    intro offset msg hf
    unfold goosePduLoop
    by_cases hg : offset < pduEnd ∧ offset < packet.length
    · rw [if_pos hg]
      obtain ⟨tag, htag⟩ := byteAt_isSome_of_lt packet offset hg.2
      rw [htag]
      simp only [Option.pure_def, Option.bind_eq_bind, Option.some_bind]
      by_cases ho1 : offset + 1 ≥ packet.length
      · rw [if_pos ho1]
        exact ⟨msg, rfl⟩
      · rw [if_neg ho1]
        obtain ⟨fl, o2, hrf, ho2a, ho2b⟩ := readFieldLen_some packet (offset + 1) (by omega)
        rw [hrf]
        simp only [Option.some_bind]
        by_cases hov : o2 + fl > packet.length
        · rw [if_pos hov]
          exact ⟨_, rfl⟩
        · rw [if_neg hov]
          obtain ⟨m2, hm2⟩ := gooseUpdateField_some packet tag fl o2 msg (by omega)
          rw [hm2]
          simp only [Option.some_bind]
          exact ih (o2 + fl) m2 (by omega)
    · rw [if_neg hg]
      exact ⟨msg, rfl⟩

/-- The checked GOOSE decoder never fails: every header access is guarded by
a size check and the TLV loop is covered by `goosePduLoop_isSome`. -/
theorem decodeGooseChecked_isSome (packet : List ℕ) :
    ∃ m, decodeGooseChecked packet = some m := by
  unfold decodeGooseChecked
  by_cases h28 : packet.length < 28
  · rw [if_pos h28]
    exact ⟨_, rfl⟩
  · rw [if_neg h28]
    obtain ⟨b12, h12⟩ := byteAt_isSome_of_lt packet 12 (by omega)
    obtain ⟨b13, h13⟩ := byteAt_isSome_of_lt packet 13 (by omega)
    rw [h12, h13]
    simp only [Option.pure_def, Option.bind_eq_bind, Option.some_bind]
    set off0 : ℕ := if b12 = 0x81 ∧ b13 = 0x00 then 16 else 12 with hoff0
    have hoff0b : off0 ≤ 16 := by
      rw [hoff0]; split <;> omega
    by_cases he2 : off0 + 2 > packet.length
    · rw [if_pos he2]
      exact ⟨_, rfl⟩
    · rw [if_neg he2]
      obtain ⟨e0, he0⟩ := byteAt_isSome_of_lt packet off0 (by omega)
      obtain ⟨e1, he1⟩ := byteAt_isSome_of_lt packet (off0 + 1) (by omega)
      rw [he0, he1]
      simp only [Option.some_bind]
      by_cases het : e0 ≠ 0x88 ∨ e1 ≠ 0xB8
      · rw [if_pos het]
        exact ⟨_, rfl⟩
      · rw [if_neg het]
        by_cases ha2 : off0 + 2 + 2 > packet.length
        · rw [if_pos ha2]
          exact ⟨_, rfl⟩
        · rw [if_neg ha2]
          obtain ⟨a0, ha0⟩ := byteAt_isSome_of_lt packet (off0 + 2) (by omega)
          obtain ⟨a1, ha1⟩ := byteAt_isSome_of_lt packet (off0 + 2 + 1) (by omega)
          rw [ha0, ha1]
          simp only [Option.some_bind]
          by_cases hl2 : off0 + 2 + 2 + 2 > packet.length
          · rw [if_pos hl2]
            exact ⟨_, rfl⟩
          · rw [if_neg hl2]
            by_cases hp : off0 + 2 + 2 + 2 + 4 ≥ packet.length
            · rw [if_pos hp]
              exact ⟨_, rfl⟩
            · rw [if_neg hp]
              obtain ⟨t, ht⟩ := byteAt_isSome_of_lt packet (off0 + 2 + 2 + 2 + 4) (by omega)
              rw [ht]
              simp only [Option.some_bind]
              by_cases ht61 : t ≠ 0x61
              · rw [if_pos ht61]
                exact ⟨_, rfl⟩
              · rw [if_neg ht61]
                by_cases hpl : off0 + 2 + 2 + 2 + 4 + 1 ≥ packet.length
                · rw [if_pos hpl]
                  exact ⟨_, rfl⟩
                · rw [if_neg hpl]
                  obtain ⟨fl, o2, hrf, _, _⟩ :=
                    readFieldLen_some packet (off0 + 2 + 2 + 2 + 4 + 1) (by omega)
                  rw [hrf]
                  simp only [Option.some_bind]
                  obtain ⟨m, hm⟩ := goosePduLoop_isSome packet (o2 + fl) packet.length o2
                    _ (by omega)
                  rw [hm]
                  simp only [Option.some_bind]
                  exact ⟨_, rfl⟩

/-- Every message produced by the checked decoder is valid exactly when its
`gocbRef` is non-empty: the early header returns leave both `valid = false`
and `gocbRef` empty, and the final return sets
`valid = !gocbRef.isEmpty`. -/
theorem decodeGooseChecked_valid_iff (packet : List ℕ) (m : GooseMessage)
    (h : decodeGooseChecked packet = some m) :
    m.valid = true ↔ m.gocbRef ≠ [] := by
  unfold decodeGooseChecked at h
  by_cases h28 : packet.length < 28
  · rw [if_pos h28] at h
    obtain rfl := Option.some.inj h
    simp
  · rw [if_neg h28] at h
    obtain ⟨b12, h12⟩ := byteAt_isSome_of_lt packet 12 (by omega)
    obtain ⟨b13, h13⟩ := byteAt_isSome_of_lt packet 13 (by omega)
    rw [h12, h13] at h
    simp only [Option.pure_def, Option.bind_eq_bind, Option.some_bind] at h
    set off0 : ℕ := if b12 = 0x81 ∧ b13 = 0x00 then 16 else 12 with hoff0
    have hoff0b : off0 ≤ 16 := by
      rw [hoff0]; split <;> omega
    by_cases he2 : off0 + 2 > packet.length
    · rw [if_pos he2] at h
      obtain rfl := Option.some.inj h
      simp
    · rw [if_neg he2] at h
      obtain ⟨e0, he0⟩ := byteAt_isSome_of_lt packet off0 (by omega)
      obtain ⟨e1, he1⟩ := byteAt_isSome_of_lt packet (off0 + 1) (by omega)
      rw [he0, he1] at h
      simp only [Option.some_bind] at h
      by_cases het : e0 ≠ 0x88 ∨ e1 ≠ 0xB8
      · rw [if_pos het] at h
        obtain rfl := Option.some.inj h
        simp
      · rw [if_neg het] at h
        by_cases ha2 : off0 + 2 + 2 > packet.length
        · rw [if_pos ha2] at h
          obtain rfl := Option.some.inj h
          simp
        · rw [if_neg ha2] at h
          obtain ⟨a0, ha0⟩ := byteAt_isSome_of_lt packet (off0 + 2) (by omega)
          obtain ⟨a1, ha1⟩ := byteAt_isSome_of_lt packet (off0 + 2 + 1) (by omega)
          rw [ha0, ha1] at h
          simp only [Option.some_bind] at h
          by_cases hl2 : off0 + 2 + 2 + 2 > packet.length
          · rw [if_pos hl2] at h
            obtain rfl := Option.some.inj h
            simp
          · rw [if_neg hl2] at h
            by_cases hp : off0 + 2 + 2 + 2 + 4 ≥ packet.length
            · rw [if_pos hp] at h
              obtain rfl := Option.some.inj h
              simp
            · rw [if_neg hp] at h
              obtain ⟨t, ht⟩ := byteAt_isSome_of_lt packet (off0 + 2 + 2 + 2 + 4) (by omega)
              rw [ht] at h
              simp only [Option.some_bind] at h
              by_cases ht61 : t ≠ 0x61
              · rw [if_pos ht61] at h
                obtain rfl := Option.some.inj h
                simp
              · rw [if_neg ht61] at h
                by_cases hpl : off0 + 2 + 2 + 2 + 4 + 1 ≥ packet.length
                · rw [if_pos hpl] at h
                  obtain rfl := Option.some.inj h
                  simp
                · rw [if_neg hpl] at h
                  obtain ⟨fl, o2, hrf, _, _⟩ :=
                    readFieldLen_some packet (off0 + 2 + 2 + 2 + 4 + 1) (by omega)
                  rw [hrf] at h
                  simp only [Option.some_bind] at h
                  obtain ⟨lm, hlm⟩ := goosePduLoop_isSome packet (o2 + fl) packet.length o2
                    _ (by omega)
                  rw [hlm] at h
                  simp only [Option.some_bind] at h
                  obtain rfl := Option.some.inj h
                  simp only [Bool.not_eq_eq_eq_not, Bool.not_false]
                  cases hgr : lm.gocbRef with
                  | nil => simp [hgr]
                  | cons a l => simp [hgr]

/-- Claim C7 (amended): for every input byte vector, the decoded GOOSE
message is valid exactly when the extracted `gocbRef` is non-empty.  A TLV
length overrun stops decoding at that point and `gocbRef` is never set from
out-of-range bytes, but the message is marked invalid only when no
`gocbRef` had been extracted before the overrun. -/
theorem C7_goose_valid_iff_gocbRef (packet : List ℕ) :
    (decodeGoose packet).valid = true ↔ (decodeGoose packet).gocbRef ≠ [] := by
  unfold decodeGoose
  obtain ⟨m, hm⟩ := decodeGooseChecked_isSome packet
  rw [hm, Option.getD_some]
  exact decodeGooseChecked_valid_iff packet m hm

/-- Counterexample to claim C7 as stated: a 29-byte frame whose PDU carries
a good 1-byte `gocbRef` TLV followed by a TLV announcing 5 bytes where only
1 remains.  The decoder takes the overrun break (`lenOverrun = true`), yet
the returned message is valid because `gocbRef` was already set. -/
theorem C7_goose_overrun_still_valid_counterexample :
    (decodeGoose [1, 1, 1, 1, 1, 1, 2, 2, 2, 2, 2, 2, 0x88, 0xB8, 0x00, 0x01, 0x00, 0x00,
        0, 0, 0, 0, 0x61, 0x10, 0x80, 0x01, 0x41, 0x82, 0x05]).lenOverrun = true ∧
    (decodeGoose [1, 1, 1, 1, 1, 1, 2, 2, 2, 2, 2, 2, 0x88, 0xB8, 0x00, 0x01, 0x00, 0x00,
        0, 0, 0, 0, 0x61, 0x10, 0x80, 0x01, 0x41, 0x82, 0x05]).valid = true ∧
    (decodeGoose [1, 1, 1, 1, 1, 1, 2, 2, 2, 2, 2, 2, 0x88, 0xB8, 0x00, 0x01, 0x00, 0x00,
        0, 0, 0, 0, 0x61, 0x10, 0x80, 0x01, 0x41, 0x82, 0x05]).gocbRef = [0x41] := by
  refine ⟨by decide, by decide, by decide⟩

/-- Claim C10: the GOOSE decoder is a total function of the input byte
vector: with every `packet[i]` access modelled as fallible, decoding never
fails, i.e. no byte access is out of range for any input, of any length and
with arbitrary embedded TLV length fields. -/
theorem C10_decodeGoose_never_out_of_bounds (packet : List ℕ) :
    decodeGooseChecked packet ≠ none := by
  obtain ⟨m, hm⟩ := decodeGooseChecked_isSome packet
  rw [hm]
  exact Option.some_ne_none m

/-! ## Claim C8 -/

/-- Claim C8 (amended): whenever the cfg stage of `load` fails, the parser
is left unloaded with the sample collection empty (both reset by the
`clear()` at the start of `load`) and the `setError` message stored; when
the failure is a numeric-conversion exception, the stored message embeds
the 1-based line counter.  The partially parsed `config_`, however, is NOT
reset on failure (it survives until the next `load`). -/
theorem C8_cfg_failure_state (lines : List String) (st : ParserState)
    (h : loadCfgStage lines = some st) :
    st.loaded = false ∧ st.samples = [] ∧
    (∃ e, (parseCfg lines).1 = .error e ∧ st.lastError = renderCfgError e) ∧
    (∀ n w, (parseCfg lines).1 = .error (.atLine n w) →
      ∃ u v, st.lastError.data = u ++ (toString n).data ++ v) := by
  unfold loadCfgStage at h
  rcases hp : parseCfg lines with ⟨r, cfg⟩
  rw [hp] at h
  cases r with
  | ok u => simp at h
  | error e =>
    simp only at h
    obtain rfl := Option.some.inj h
    refine ⟨rfl, rfl, ⟨e, rfl, rfl⟩, ?_⟩
    intro n w hnw
    have hnw2 : Except.error e = Except.error (CfgError.atLine n w) := hnw
    injection hnw2 with he
    subst he
    refine ⟨"Error parsing .cfg file at line ".data, (": " ++ w).data, ?_⟩
    simp [renderCfgError, String.data_append]

/-- Counterexample to claim C8 as stated: a cfg whose data-format line
holds `XYZ` fails with the stored message "Unknown data format: XYZ",
which contains no digit at all — so it cannot reference the offending
line's 1-based number (line 8) — and the partially parsed config is
retained: `stationName` still holds `"STATION"` instead of the cleared
default `""`. -/
theorem C8_cfg_failure_counterexample :
    (loadCfgStage ["STATION,DEV", "0,0,0", "60", "1", "4800,8",
        "01/01/2020,00:00:00.000000", "trigger", "XYZ"]).map ParserState.lastError
      = some "Unknown data format: XYZ" ∧
    ("Unknown data format: XYZ").data.all (fun c => !c.isDigit) = true ∧
    (loadCfgStage ["STATION,DEV", "0,0,0", "60", "1", "4800,8",
        "01/01/2020,00:00:00.000000", "trigger", "XYZ"]).map
        (fun st => st.config.stationName)
      = some "STATION" ∧
    "STATION" ≠ "" := by
  refine ⟨by decide, by decide, by decide, by decide⟩

/-- Witness for the amended C8 on a cfg whose line-frequency line is not
numeric (`"abc"` at line 3). -/
theorem C8_cfg_failure_state_witness :
    (loadCfgStage ["ST,DEV", "0,0,0", "abc"]
      = some ((loadCfgStage ["ST,DEV", "0,0,0", "abc"]).getD {})) ∧
    (((loadCfgStage ["ST,DEV", "0,0,0", "abc"]).getD {}).loaded = false ∧
     ((loadCfgStage ["ST,DEV", "0,0,0", "abc"]).getD {}).samples = [] ∧
     (∃ e, (parseCfg ["ST,DEV", "0,0,0", "abc"]).1 = .error e ∧
       ((loadCfgStage ["ST,DEV", "0,0,0", "abc"]).getD {}).lastError = renderCfgError e) ∧
     (∀ n w, (parseCfg ["ST,DEV", "0,0,0", "abc"]).1 = .error (.atLine n w) →
       ∃ u v, ((loadCfgStage ["ST,DEV", "0,0,0", "abc"]).getD {}).lastError.data
         = u ++ (toString n).data ++ v)) :=
  ⟨by decide, C8_cfg_failure_state ["ST,DEV", "0,0,0", "abc"]
    ((loadCfgStage ["ST,DEV", "0,0,0", "abc"]).getD {}) (by decide)⟩
